import Mathlib

/-!
Verification of the content-management backend (Express/Mongoose CRUD service).

The JavaScript source is shallowly embedded: Mongo collections become Lean
lists, request bodies become structures of `Option` fields (`none` = field
absent), JavaScript string truthiness (`!x` is true for `undefined` and `""`)
is modelled by `truthy`, and each controller becomes a pure function from the
collection state and request data to a result value plus the new collection
state.  The bcrypt and JWT libraries are black boxes per the design document:
bcrypt hashing/comparison are function parameters, and an issued token is
modelled by the record of claims the code signs.  Mongoose schema validation
(email regex, password min-length, title max-length, status enum) is not
modelled: it can only turn a success into a failure, never change what a
successful operation stores, so theorems quantified over successful operations
cover all real successes.
-/

namespace Backend

/-- JavaScript truthiness for an optional string field of a request body:
`!x` is true exactly when the field is absent (`undefined`) or `""`. -/
def truthy (o : Option String) : Bool :=
  !(o.getD "" == "")

/-! ### Slug derivation (`generateSlug` in both content controllers)

The source lowercases the title, deletes every character outside
`[A-Za-z0-9_]`, whitespace and hyphen, replaces each whitespace run by a
single hyphen, collapses each run of two or more hyphens to one, and finally
trims; modelled over `List Char`.  The `\w` class is `[A-Za-z0-9_]`; the `\s`
class is modelled by the ASCII whitespace characters; `toLowerCase` by
`Char.toLower` (ASCII case mapping). -/

/-- The characters matched by the JavaScript `\s` class (ASCII part). -/
def isSpaceJS (c : Char) : Bool :=
  c == ' ' || c == '\t' || c == '\n' || c == '\r' || c == '\x0b' || c == '\x0c'

/-- The characters matched by the JavaScript `\w` class. -/
def isWordJS (c : Char) : Bool :=
  ('a' ≤ c && c ≤ 'z') || ('A' ≤ c && c ≤ 'Z') || ('0' ≤ c && c ≤ '9') || c == '_'

/-- Characters kept by `.replace(/[^\w\s-]/g, "")`. -/
def keepChar (c : Char) : Bool :=
  isWordJS c || isSpaceJS c || c == '-'

/-- Replace every maximal run of characters satisfying `p` by the single
character `r`; the boolean records whether we are inside a run.  With
`p := isSpaceJS` this is the whitespace-run replacement; with
`p := (· == '-')` it is the hyphen-run collapse (a one-hyphen run collapses
to itself, so matching runs of length one as well changes nothing). -/
def squashRuns (p : Char → Bool) (r : Char) : Bool → List Char → List Char
  | _, [] => []
  | inRun, c :: cs =>
    if p c then
      if inRun then squashRuns p r true cs
      else r :: squashRuns p r true cs
    else c :: squashRuns p r false cs

/-- `.trim()`: drop leading and trailing whitespace. -/
def trimL (l : List Char) : List Char :=
  ((l.dropWhile isSpaceJS).reverse.dropWhile isSpaceJS).reverse

/-- The character pipeline of `generateSlug`. -/
def slugChars (l : List Char) : List Char :=
  trimL (squashRuns (fun c => c == '-') '-' false
    (squashRuns isSpaceJS '-' false
      (List.filter keepChar (l.map Char.toLower))))

/-- `generateSlug` from the content controllers. -/
def generateSlug (title : String) : String :=
  String.mk (slugChars title.data)

/-! ### Data model

`User` is the mongoose user document (userModel with the generated `userId`
field).  `_id` is the database-internal ObjectId, kept as a `String`;
`userId` is the separate human-readable identifier generated by the
pre-save hook.  `Content` is the content document; `author_id` is declared
as `String` in the schema. -/

/-- The `roles` sub-document of a user. -/
structure Roles where
  accessContent : Bool
  accessProduct : Bool
  deriving DecidableEq, Repr

/-- A stored user document. -/
structure User where
  _id : String
  userId : String
  name : String
  email : String
  password : String
  isAdmin : Bool
  roles : Roles
  deriving DecidableEq, Repr

/-- A stored content document.  The schema's `lowercase: true` setter on
`slug` is not modelled (like validation, a storage-layer transform below the
controllers); slugs are compared and stored as exact strings, as the
controllers' `findOne`/assignment do. -/
structure Content where
  _id : Nat
  title : String
  slug : String
  body : String
  category : String
  tags : List String
  author_id : String
  status : String
  deriving DecidableEq, Repr

/-- The claims signed into a JWT by `generateAuthToken`
(`{ id, userId, email, isAdmin, roles }`). -/
structure Claims where
  id : String
  userId : String
  email : String
  isAdmin : Bool
  roles : Roles
  deriving DecidableEq, Repr

/-- `User.findById` — first document whose `_id` matches. -/
def findUserById (db : List User) (uid : String) : Option User :=
  db.find? (fun u => u._id == uid)

/-- `User.findOne({ email })` — first document whose `email` matches. -/
def findUserByEmail (db : List User) (e : String) : Option User :=
  db.find? (fun u => u.email == e)

/-- `Content.findById` — first document whose `_id` matches. -/
def findContentById (db : List Content) (cid : Nat) : Option Content :=
  db.find? (fun c => c._id == cid)

/-- `Content.findOne({ slug })` — first document whose `slug` matches. -/
def findOneBySlug (db : List Content) (s : String) : Option Content :=
  db.find? (fun c => c.slug == s)

/-- `document.save()` on a fetched document: write it back in place
(at most one document per `_id` exists in Mongo; we replace the first
match, which is the document `findById` returned). -/
def replaceById : List Content → Nat → Content → List Content
  | [], _, _ => []
  | c :: cs, cid, c' => if c._id == cid then c' :: cs else c :: replaceById cs cid c'

/-- `document.deleteOne()` on a fetched document: remove it. -/
def eraseById : List Content → Nat → List Content
  | [], _ => []
  | c :: cs, cid => if c._id == cid then cs else c :: eraseById cs cid

/-- A content request body as destructured by the controllers:
`const { title, slug, body, category, tags, status } = req.body`. -/
structure ContentBody where
  title : Option String
  slug : Option String
  body : Option String
  category : Option String
  tags : Option (List String)
  status : Option String
  deriving DecidableEq, Repr

/-- Result of `createContent` (201 on success, otherwise a 400 body). -/
inductive CreateResult where
  | badRequest (msg : String)
  | created (c : Content)
  deriving DecidableEq, Repr

/-- Result of `updateContent`. -/
inductive UpdateResult where
  | notFound (msg : String)
  | forbidden (msg : String)
  | badRequest (msg : String)
  | updated (c : Content)
  deriving DecidableEq, Repr

/-- Result of `deleteContent`. -/
inductive DeleteResult where
  | notFound (msg : String)
  | forbidden (msg : String)
  | deleted
  deriving DecidableEq, Repr

/-- The final slug of a create request: `slug || generateSlug(title)`. -/
def finalSlug (b : ContentBody) : String :=
  if truthy b.slug then b.slug.getD "" else generateSlug (b.title.getD "")

/-- The field updates applied by `updateContent`:
`if (title) content.title = title` etc.; `tags` is an array, so any present
array (including `[]`) is truthy. -/
def applyUpdates (c : Content) (b : ContentBody) : Content :=
  { c with
    title := if truthy b.title then b.title.getD "" else c.title
    slug := if truthy b.slug then b.slug.getD "" else c.slug
    body := if truthy b.body then b.body.getD "" else c.body
    category := if truthy b.category then b.category.getD "" else c.category
    tags := match b.tags with | some ts => ts | none => c.tags
    status := if truthy b.status then b.status.getD "" else c.status }

/-! ### Content controller, variant A

The controller that stores the database-internal identifier:
`author_id: req.user._id`, and checks ownership by
`content.author_id.toString() !== req.user._id.toString()`. -/

namespace ControllerA

/-- `createContent` (variant A).  `newId` stands for the ObjectId Mongo
assigns to the inserted document. -/
def createContent (db : List Content) (actor : User) (newId : Nat)
    (b : ContentBody) : CreateResult × List Content :=
  if !(truthy b.title && truthy b.body && truthy b.category) then
    (.badRequest "Please provide all required fields: title, body, category", db)
  else
    match findOneBySlug db (finalSlug b) with
    | some _ => (.badRequest "A post with this slug already exists", db)
    | none =>
      let c : Content :=
        { _id := newId
          title := b.title.getD ""
          slug := finalSlug b
          body := b.body.getD ""
          category := b.category.getD ""
          tags := b.tags.getD []
          author_id := actor._id
          status := if truthy b.status then b.status.getD "" else "draft" }
      (.created c, db ++ [c])

/-- `deleteContent` (variant A): ownership compares `author_id` with the
actor's `_id`. -/
def deleteContent (db : List Content) (actor : User) (cid : Nat) :
    DeleteResult × List Content :=
  match findContentById db cid with
  | none => (.notFound "Content not found", db)
  | some content =>
    if content.author_id != actor._id && !actor.isAdmin then
      (.forbidden "Not authorized to delete this content", db)
    else
      (.deleted, eraseById db cid)

end ControllerA

/-! ### Content controller, variant B

The controller that stores the human-readable identifier:
`author_id: req.user.userId`, and checks ownership by
`content.author_id !== req.user.userId`. -/

namespace ControllerB

/-- `createContent` (variant B). -/
def createContent (db : List Content) (actor : User) (newId : Nat)
    (b : ContentBody) : CreateResult × List Content :=
  if !(truthy b.title && truthy b.body && truthy b.category) then
    (.badRequest "Please provide all required fields: title, body, category", db)
  else
    match findOneBySlug db (finalSlug b) with
    | some _ => (.badRequest "A post with this slug already exists", db)
    | none =>
      let c : Content :=
        { _id := newId
          title := b.title.getD ""
          slug := finalSlug b
          body := b.body.getD ""
          category := b.category.getD ""
          tags := b.tags.getD []
          author_id := actor.userId
          status := if truthy b.status then b.status.getD "" else "draft" }
      (.created c, db ++ [c])

/-- `updateContent` (variant B): 404 when the id resolves to no document,
403 unless the actor is the author (by `userId`) or an admin, 400 when a
changed slug collides, then partial update and save. -/
def updateContent (db : List Content) (actor : User) (cid : Nat)
    (b : ContentBody) : UpdateResult × List Content :=
  match findContentById db cid with
  | none => (.notFound "Content not found", db)
  | some content =>
    if content.author_id != actor.userId && !actor.isAdmin then
      (.forbidden "Not authorized to update this content", db)
    else if truthy b.slug && b.slug.getD "" != content.slug
        && (findOneBySlug db (b.slug.getD "")).isSome then
      (.badRequest "A post with this slug already exists", db)
    else
      let c' := applyUpdates content b
      (.updated c', replaceById db cid c')

/-- `deleteContent` (variant B): ownership compares `author_id` with the
actor's `userId`. -/
def deleteContent (db : List Content) (actor : User) (cid : Nat) :
    DeleteResult × List Content :=
  match findContentById db cid with
  | none => (.notFound "Content not found", db)
  | some content =>
    if content.author_id != actor.userId && !actor.isAdmin then
      (.forbidden "Not authorized to delete this content", db)
    else
      (.deleted, eraseById db cid)

end ControllerB

/-! ### User model methods and schema setters

`lowerS`/`trimS` model the mongoose `lowercase: true` / `trim: true` string
setters on the user schema.  `generateAuthToken` signs
`{ id, userId, email, isAdmin, roles }`; the token is modelled by the claims
record itself (JWT signing is a black-box library). -/

/-- The mongoose `lowercase: true` setter. -/
def lowerS (s : String) : String :=
  String.mk (s.data.map Char.toLower)

/-- The mongoose `trim: true` setter. -/
def trimS (s : String) : String :=
  String.mk (trimL s.data)

/-- `userSchema.methods.generateAuthToken` (userId variant). -/
def generateAuthToken (u : User) : Claims :=
  { id := u._id, userId := u.userId, email := u.email,
    isAdmin := u.isAdmin, roles := u.roles }

/-- The `roles` object of a register/update request body; each capability
may be absent. -/
structure RolesInput where
  accessContent : Option Bool
  accessProduct : Option Bool
  deriving DecidableEq, Repr

/-- The register request body:
`const { name, email, password, isAdmin, roles } = req.body`. -/
structure RegisterBody where
  name : Option String
  email : Option String
  password : Option String
  isAdmin : Option Bool
  roles : Option RolesInput
  deriving DecidableEq, Repr

/-- Result of `registerUser` (201 with token on success). -/
inductive RegisterResult where
  | badRequest (msg : String)
  | registered (u : User) (token : Claims)
  deriving DecidableEq, Repr

/-- The user document `registerUser` builds and saves: controller fields
(`isAdmin: isAdmin || false`, `roles.accessContent: roles?.accessContent ||
false`, likewise product) plus the save-time effects (userId hook, password
hash hook, email/name schema setters). -/
def registeredUser (bhash : String → String) (mongoId freshUserId : String)
    (b : RegisterBody) : User :=
  { _id := mongoId
    userId := freshUserId
    name := trimS (b.name.getD "")
    email := trimS (lowerS (b.email.getD ""))
    password := bhash (b.password.getD "")
    isAdmin := b.isAdmin.getD false
    roles :=
      { accessContent :=
          match b.roles with
          | some r => r.accessContent.getD false
          | none => false
        accessProduct :=
          match b.roles with
          | some r => r.accessProduct.getD false
          | none => false } }

/-- `registerUser`: validates presence of name/email/password, rejects a
registered email, then builds the user (`isAdmin: isAdmin || false`,
`roles.accessContent: roles?.accessContent || false`, likewise product) and
saves it.  Saving runs the pre-save hooks: `userId` generation (modelled by
the `freshUserId` parameter, the hook draws on the clock and a random
string) and bcrypt hashing of the password (`bhash` is the black-box
`bcrypt.hash` with its generated salt); the schema setters lowercase and
trim the email and trim the name.  `mongoId` is the ObjectId Mongo
assigns. -/
def registerUser (bhash : String → String) (db : List User)
    (mongoId freshUserId : String) (b : RegisterBody) :
    RegisterResult × List User :=
  if !(truthy b.name && truthy b.email && truthy b.password) then
    (.badRequest "Please provide name, email, and password", db)
  else
    match findUserByEmail db (b.email.getD "") with
    | some _ => (.badRequest "User with this email already exists", db)
    | none =>
      let u : User := registeredUser bhash mongoId freshUserId b
      (.registered u (generateAuthToken u), db ++ [u])


/-- Result of `loginUser`. -/
inductive LoginResult where
  | badRequest (msg : String)
  | authError (msg : String)
  | loggedIn (u : User) (token : Claims)
  deriving DecidableEq, Repr

/-- `loginUser`: validates presence, looks the user up by email, then runs
`user.comparePassword(password)`, i.e. `bcrypt.compare(entered, stored)`
(`bcompare` is the black-box comparison).  Both the unknown-email and the
wrong-password branches return 401 `"Invalid credentials"`. -/
def loginUser (bcompare : String → String → Bool) (db : List User)
    (email password : Option String) : LoginResult :=
  if !(truthy email && truthy password) then
    .badRequest "Please provide email and password"
  else
    match findUserByEmail db (email.getD "") with
    | none => .authError "Invalid credentials"
    | some user =>
      if !(bcompare (password.getD "") user.password) then
        .authError "Invalid credentials"
      else
        .loggedIn user (generateAuthToken user)

/-- The update-user request body. -/
structure UserUpdateBody where
  name : Option String
  email : Option String
  isAdmin : Option Bool
  roles : Option RolesInput
  password : Option String
  deriving DecidableEq, Repr

/-- Result of `updateUser`. -/
inductive UserUpdateResult where
  | notFound (msg : String)
  | badRequest (msg : String)
  | updated (u : User)
  deriving DecidableEq, Repr

/-- `document.save()` for a fetched user document. -/
def replaceUserById : List User → String → User → List User
  | [], _, _ => []
  | u :: us, uid, u' => if u._id == uid then u' :: us else u :: replaceUserById us uid u'

/-- `updateUser`: 404 when the id resolves to no user; 400 when a supplied
email belongs to a different user; otherwise applies the supplied fields
(`isAdmin` and the role flags use `!== undefined` checks, the string fields
use truthiness) and saves, which re-runs the schema setters and hashes a
modified password. -/
def updateUser (bhash : String → String) (db : List User) (uid : String)
    (b : UserUpdateBody) : UserUpdateResult × List User :=
  match findUserById db uid with
  | none => (.notFound "User not found", db)
  | some user =>
    if truthy b.email &&
        (match findUserByEmail db (b.email.getD "") with
         | some existing => existing._id != uid
         | none => false) then
      (.badRequest "Email already in use", db)
    else
      let u' : User :=
        { user with
          name := if truthy b.name then trimS (b.name.getD "") else user.name
          email := if truthy b.email then trimS (lowerS (b.email.getD "")) else user.email
          password := if truthy b.password then bhash (b.password.getD "") else user.password
          isAdmin := match b.isAdmin with | some v => v | none => user.isAdmin
          roles :=
            { accessContent :=
                match b.roles with
                | some r => match r.accessContent with
                  | some v => v
                  | none => user.roles.accessContent
                | none => user.roles.accessContent
              accessProduct :=
                match b.roles with
                | some r => match r.accessProduct with
                  | some v => v
                  | none => user.roles.accessProduct
                | none => user.roles.accessProduct } }
      (.updated u', replaceUserById db uid u')

/-! ### Auth middleware (`src/middleware/auth.js`) -/

/-- Token extraction in `protect`: if the `Authorization` header exists and
starts with `"Bearer"`, the token is `header.split(" ")[1]` (possibly
`undefined`); otherwise no token. -/
def extractToken (authorization : Option String) : Option String :=
  match authorization with
  | some s => if s.startsWith "Bearer" then (s.splitOn " ")[1]? else none
  | none => none

/-- Outcome of running a protected route's middleware chain. -/
inductive RouteOutcome where
  | handler (u : User)
  | unauthorized (msg : String)
  | forbidden (msg : String)
  deriving DecidableEq, Repr

/-- `protect`: 401 when the token is missing (`!token` — absent or empty),
when `jwt.verify` fails (`verify` is the black-box verifier: `none` on bad
signature, expiry or malformation), or when the decoded id resolves to no
user; otherwise attaches the user. -/
def protect (verify : String → Option Claims) (db : List User)
    (authorization : Option String) : Except String User :=
  let token := (extractToken authorization).getD ""
  if token == "" then
    .error "Not authorized to access this route. Please login."
  else
    match verify token with
    | none => .error "Not authorized, token failed or expired"
    | some decoded =>
      match findUserById db decoded.id with
      | none => .error "User not found"
      | some user => .ok user

/-- `hasContentAccess`: `req.user && (req.user.isAdmin || req.user.roles.accessContent)`. -/
def hasContentAccess (user : Option User) : Bool :=
  match user with
  | some u => u.isAdmin || u.roles.accessContent
  | none => false

/-- The middleware chain `protect, hasContentAccess` guarding
POST `/api/content`, PUT `/api/content/:id` and DELETE `/api/content/:id`:
the handler runs only if both pass. -/
def protectedContentRoute (verify : String → Option Claims) (db : List User)
    (authorization : Option String) : RouteOutcome :=
  match protect verify db authorization with
  | .error msg => .unauthorized msg
  | .ok user =>
    if hasContentAccess (some user) then .handler user
    else .forbidden "Access denied. Content access permission required."

/-! ### Operation sequences over the content collection (for the slug
uniqueness invariant) -/

/-- A create or update request against the content collection, with the
authenticated actor and (for create) the ObjectId Mongo assigns. -/
inductive ContentOp where
  | create (newId : Nat) (b : ContentBody) (actor : User)
  | update (cid : Nat) (b : ContentBody) (actor : User)
  deriving DecidableEq, Repr

/-- The collection state after one content operation (unchanged when the
operation fails). -/
def applyOp (db : List Content) : ContentOp → List Content
  | .create newId b actor => (ControllerB.createContent db actor newId b).2
  | .update cid b actor => (ControllerB.updateContent db actor cid b).2

/-- No two content records share a slug. -/
def slugsNodup (db : List Content) : Prop :=
  (db.map (fun c => c.slug)).Nodup

/-! ### Concrete fixtures used by witness theorems -/

/-- A non-admin author with content access. -/
def authorFixture : User :=
  { _id := "64a1f0b2c3d4e5f6a7b8c9d0"
    userId := "USER-1700000000000-a1b2c3d4e"
    name := "Ann"
    email := "ann@example.com"
    password := "$hashedpw"
    isAdmin := false
    roles := { accessContent := true, accessProduct := false } }

/-- A create request without an explicit slug. -/
def createBodyFixture : ContentBody :=
  { title := some "Hello, World!!", slug := none, body := some "Body text",
    category := some "news", tags := none, status := none }

/-- An update request whose body contains only a status value. -/
def statusOnlyBody : ContentBody :=
  { title := none, slug := none, body := none, category := none,
    tags := none, status := some "published" }

/-- The record `createContent` (variant A) stores for `createBodyFixture`
by `authorFixture`: `author_id` is the database-internal `_id`. -/
def contentFixtureA : Content :=
  { _id := 1, title := "Hello, World!!", slug := "hello-world",
    body := "Body text", category := "news", tags := [],
    author_id := "64a1f0b2c3d4e5f6a7b8c9d0", status := "draft" }

/-- The record `createContent` (variant B) stores for the same request:
`author_id` is the human-readable `userId`. -/
def contentFixtureB : Content :=
  { contentFixtureA with author_id := "USER-1700000000000-a1b2c3d4e" }

/-- A black-box stand-in for `bcrypt.hash` used by witnesses: prefixing
makes the hash visibly different from every plaintext. -/
def hashFixture (p : String) : String :=
  "$2b$10$" ++ p

/-- A register request that claims admin and content access. -/
def registerBodyFixture : RegisterBody :=
  { name := some "Eve", email := some "eve@example.com",
    password := some "secret123", isAdmin := some true,
    roles := some { accessContent := some true, accessProduct := some false } }

/-- `contentFixtureB` after an update that only sets the status. -/
def publishedContentFixture : Content :=
  { contentFixtureB with status := "published" }

/-- An update-user request that only changes the password. -/
def passwordOnlyUpdate : UserUpdateBody :=
  { name := none, email := none, isAdmin := none, roles := none,
    password := some "newsecret" }

/-- The stored user the concrete registration produces. -/
def registeredUserFixture : User :=
  { _id := "64b0", userId := "USER-2", name := "Eve",
    email := "eve@example.com", password := "$2b$10$secret123",
    isAdmin := true, roles := { accessContent := true, accessProduct := false } }

/-! ### Helper lemmas about the slug pipeline -/

theorem toNat_ofNat_lt (n : Nat) (h : n < 55296) : (Char.ofNat n).toNat = n := by
  rw [Char.ofNat, dif_pos (Or.inl h)]
  rfl

theorem char_toLower_fixed {c : Char} (h : ¬(65 ≤ c.toNat ∧ c.toNat ≤ 90)) :
    c.toLower = c := by
  unfold Char.toLower
  simp only [ge_iff_le]
  rw [if_neg h]

theorem char_toLower_not_upper (c : Char) :
    ¬(65 ≤ (Char.toLower c).toNat ∧ (Char.toLower c).toNat ≤ 90) := by
  unfold Char.toLower
  by_cases h : 65 ≤ c.toNat ∧ c.toNat ≤ 90
  · simp only [ge_iff_le]
    rw [if_pos h, toNat_ofNat_lt _ (by omega)]
    omega
  · simp only [ge_iff_le]
    rw [if_neg h]
    exact h

theorem char_toLower_idem (c : Char) : (Char.toLower c).toLower = Char.toLower c :=
  char_toLower_fixed (char_toLower_not_upper c)

theorem squashRuns_cons_pos_true {p : Char → Bool} {r x : Char} {xs : List Char}
    (hp : p x = true) : squashRuns p r true (x :: xs) = squashRuns p r true xs := by
  simp [squashRuns, hp]

theorem squashRuns_cons_pos_false {p : Char → Bool} {r x : Char} {xs : List Char}
    (hp : p x = true) :
    squashRuns p r false (x :: xs) = r :: squashRuns p r true xs := by
  simp [squashRuns, hp]

theorem squashRuns_cons_neg {p : Char → Bool} {r x : Char} {b : Bool}
    {xs : List Char} (hp : p x = false) :
    squashRuns p r b (x :: xs) = x :: squashRuns p r false xs := by
  simp [squashRuns, hp]

theorem mem_squashRuns {p : Char → Bool} {r : Char} {b : Bool} {l : List Char}
    {c : Char} (h : c ∈ squashRuns p r b l) : c = r ∨ (c ∈ l ∧ p c = false) := by
  induction l generalizing b with
  | nil => simp [squashRuns] at h
  | cons x xs ih =>
    by_cases hp : p x
    · by_cases hb : b
      · subst hb
        rw [squashRuns_cons_pos_true hp] at h
        rcases ih h with h' | ⟨hm, hpc⟩
        · exact Or.inl h'
        · exact Or.inr ⟨List.mem_cons_of_mem _ hm, hpc⟩
      · simp only [Bool.not_eq_true] at hb
        subst hb
        rw [squashRuns_cons_pos_false hp, List.mem_cons] at h
        rcases h with h' | h'
        · exact Or.inl h'
        · rcases ih h' with h'' | ⟨hm, hpc⟩
          · exact Or.inl h''
          · exact Or.inr ⟨List.mem_cons_of_mem _ hm, hpc⟩
    · have hp' : p x = false := by simpa using hp
      rw [squashRuns_cons_neg hp', List.mem_cons] at h
      rcases h with h' | h'
      · subst h'
        exact Or.inr ⟨List.mem_cons_self _ _, hp'⟩
      · rcases ih h' with h'' | ⟨hm, hpc⟩
        · exact Or.inl h''
        · exact Or.inr ⟨List.mem_cons_of_mem _ hm, hpc⟩

theorem squashRuns_eq_self {p : Char → Bool} {r : Char} {b : Bool} {l : List Char}
    (h : ∀ c ∈ l, p c = false) : squashRuns p r b l = l := by
  induction l generalizing b with
  | nil => rfl
  | cons x xs ih =>
    rw [squashRuns_cons_neg (h x (List.mem_cons_self _ _))]
    exact congrArg (x :: ·) (ih fun c hc => h c (List.mem_cons_of_mem _ hc))

theorem squashRuns_chain' (p : Char → Bool) (r : Char) (b : Bool) (l : List Char) :
    (squashRuns p r b l).Chain' (fun a a' => ¬(p a = true ∧ p a' = true)) ∧
      (b = true → ∀ h ∈ (squashRuns p r b l).head?, p h = false) := by
  induction l generalizing b with
  | nil => simp [squashRuns]
  | cons x xs ih =>
    by_cases hp : p x
    · by_cases hb : b
      · subst hb
        rw [squashRuns_cons_pos_true hp]
        exact ih true
      · simp only [Bool.not_eq_true] at hb
        subst hb
        rw [squashRuns_cons_pos_false hp]
        refine ⟨List.chain'_cons'.2 ⟨?_, (ih true).1⟩, by simp⟩
        intro y hy
        intro hpair
        exact absurd hpair.2 (by simpa using (ih true).2 rfl y hy)
    · have hp' : p x = false := by simpa using hp
      rw [squashRuns_cons_neg hp']
      refine ⟨List.chain'_cons'.2 ⟨?_, (ih false).1⟩, ?_⟩
      · intro y _
        intro hpair
        exact absurd hpair.1 (by simp [hp'])
      · intro _ h hh
        simp only [List.head?_cons, Option.mem_def, Option.some.injEq] at hh
        subst hh
        exact hp'

theorem squashRuns_eq_self_of_chain'_aux {p : Char → Bool} {r : Char}
    (hr : ∀ c, p c = true → c = r) :
    ∀ (l : List Char) (b : Bool),
      l.Chain' (fun a a' => ¬(p a = true ∧ p a' = true)) →
      (b = true → ∀ h ∈ l.head?, p h = false) →
      squashRuns p r b l = l := by
  intro l
  induction l with
  | nil => intro b _ _; rfl
  | cons x xs ih =>
    intro b hch hhd
    rcases List.chain'_cons'.1 hch with ⟨hpair, hch'⟩
    by_cases hp : p x
    · have hb : b = false := by
        cases b with
        | false => rfl
        | true => exact absurd hp (by simpa using hhd rfl x (by simp))
      subst hb
      rw [squashRuns_cons_pos_false hp]
      have hx : x = r := hr x hp
      have hrest : squashRuns p r true xs = xs := by
        refine ih true hch' ?_
        intro _ h hh
        by_contra hph
        exact hpair h hh ⟨hp, by simpa using hph⟩
      rw [hx, hrest]
    · have hp' : p x = false := by simpa using hp
      rw [squashRuns_cons_neg hp']
      exact congrArg (x :: ·) (ih false hch' (by simp))

theorem dropWhile_eq_self {p : Char → Bool} {l : List Char}
    (h : ∀ c ∈ l, p c = false) : l.dropWhile p = l := by
  cases l with
  | nil => rfl
  | cons x xs => simp [List.dropWhile_cons, h x (List.mem_cons_self _ _)]

theorem mem_trimL {l : List Char} {c : Char} (h : c ∈ trimL l) : c ∈ l := by
  unfold trimL at h
  rw [List.mem_reverse] at h
  have h1 := ((List.dropWhile_suffix isSpaceJS).sublist).mem h
  rw [List.mem_reverse] at h1
  exact ((List.dropWhile_suffix isSpaceJS).sublist).mem h1

theorem trimL_eq_self {l : List Char} (h : ∀ c ∈ l, isSpaceJS c = false) :
    trimL l = l := by
  unfold trimL
  rw [dropWhile_eq_self h, dropWhile_eq_self (by simpa using h), List.reverse_reverse]

theorem chain'_trimL {R : Char → Char → Prop} (hs : ∀ a a', R a a' → R a' a)
    {l : List Char} (h : l.Chain' R) : (trimL l).Chain' R := by
  unfold trimL
  have h1 : (l.dropWhile isSpaceJS).Chain' R :=
    h.suffix (List.dropWhile_suffix _)
  have h2 : ((l.dropWhile isSpaceJS).reverse).Chain' R := by
    rw [List.chain'_reverse]
    exact h1.imp fun a a' => hs a a'
  have h3 : (((l.dropWhile isSpaceJS).reverse).dropWhile isSpaceJS).Chain' R :=
    h2.suffix (List.dropWhile_suffix _)
  rw [List.chain'_reverse]
  exact h3.imp fun a a' => hs a a'

theorem map_eq_self_of_fixed {l : List Char} {f : Char → Char}
    (h : ∀ c ∈ l, f c = c) : l.map f = l := by
  induction l with
  | nil => rfl
  | cons x xs ih =>
    rw [List.map_cons, h x (List.mem_cons_self _ _),
      ih fun c hc => h c (List.mem_cons_of_mem _ hc)]

theorem filter_eq_self_of {l : List Char} {q : Char → Bool}
    (h : ∀ c ∈ l, q c = true) : l.filter q = l := by
  induction l with
  | nil => rfl
  | cons x xs ih =>
    rw [List.filter_cons, if_pos (h x (List.mem_cons_self _ _)),
      ih fun c hc => h c (List.mem_cons_of_mem _ hc)]

/-- Every character of a derived slug is a kept character (word, space or
hyphen class), is not whitespace, and is fixed by `Char.toLower`. -/
theorem slugChars_mem {l : List Char} {c : Char} (h : c ∈ slugChars l) :
    keepChar c = true ∧ isSpaceJS c = false ∧ Char.toLower c = c := by
  unfold slugChars at h
  have h1 := mem_trimL h
  rcases mem_squashRuns h1 with hc | ⟨h2, _⟩
  · subst hc
    exact ⟨by decide, by decide, by decide⟩
  · rcases mem_squashRuns h2 with hc | ⟨h3, hps⟩
    · subst hc
      exact ⟨by decide, by decide, by decide⟩
    · have hkeep : keepChar c = true := List.of_mem_filter h3
      have hmap : c ∈ l.map Char.toLower := List.mem_of_mem_filter h3
      rcases List.mem_map.1 hmap with ⟨x, _, hx⟩
      subst hx
      exact ⟨hkeep, hps, char_toLower_idem x⟩

/-- A derived slug never contains two adjacent hyphens. -/
theorem slugChars_chain' (l : List Char) :
    (slugChars l).Chain'
      (fun a a' => ¬((a == '-') = true ∧ (a' == '-') = true)) := by
  unfold slugChars
  exact chain'_trimL (fun a a' h hp => h ⟨hp.2, hp.1⟩)
    ((squashRuns_chain' (fun c => c == '-') '-' false _).1)

theorem slugChars_idem (l : List Char) : slugChars (slugChars l) = slugChars l := by
  have hmem : ∀ c ∈ slugChars l,
      keepChar c = true ∧ isSpaceJS c = false ∧ Char.toLower c = c :=
    fun c hc => slugChars_mem hc
  conv_lhs => rw [slugChars]
  rw [map_eq_self_of_fixed fun c hc => (hmem c hc).2.2,
    filter_eq_self_of fun c hc => (hmem c hc).1,
    squashRuns_eq_self fun c hc => (hmem c hc).2.1,
    squashRuns_eq_self_of_chain'_aux (fun c hc => by simpa using hc) _ false
      (slugChars_chain' l) (by simp),
    trimL_eq_self fun c hc => (hmem c hc).2.1]

/-! ### Claim theorems -/

/-- C7: For every content creation without an explicit slug, the stored slug
equals the title transformed by the `generateSlug` pipeline (lowercase, strip
characters outside word/whitespace/hyphen, replace whitespace runs by single
hyphens, collapse repeated hyphens, trim); in particular the title
`"Hello, World!!"` yields the slug `"hello-world"`. -/
theorem create_derives_slug_from_title (db : List Content) (actor : User)
    (newId : Nat) (b : ContentBody) (hslug : truthy b.slug = false) :
    (∀ c db', ControllerB.createContent db actor newId b = (.created c, db') →
      c.slug = generateSlug (b.title.getD "")) ∧
    generateSlug "Hello, World!!" = "hello-world" := by
  constructor
  · intro c db' h
    unfold ControllerB.createContent at h
    split at h
    · exact absurd h (by simp)
    · split at h
      · exact absurd h (by simp)
      · rw [Prod.mk.injEq] at h
        have hc : CreateResult.created _ = CreateResult.created c := h.1
        rw [CreateResult.created.injEq] at hc
        rw [← hc]
        show finalSlug b = _
        unfold finalSlug
        rw [if_neg (by simp [hslug])]
  · decide

/-- Witness for C7: the concrete create request with title
`"Hello, World!!"` and no slug stores the slug `"hello-world"`. -/
theorem create_derives_slug_from_title_witness :
    contentFixtureB.slug = generateSlug "Hello, World!!" ∧
    generateSlug "Hello, World!!" = "hello-world" := by
  have h := create_derives_slug_from_title [] authorFixture 1 createBodyFixture
    (by decide)
  exact ⟨h.1 contentFixtureB [contentFixtureB] (by decide), h.2⟩

/-- C8: Slug derivation is idempotent: for every title string `t`,
`generateSlug (generateSlug t) = generateSlug t`. -/
theorem generateSlug_idempotent (t : String) :
    generateSlug (generateSlug t) = generateSlug t := by
  unfold generateSlug
  exact congrArg String.mk (slugChars_idem t.data)

/-- C1: On the protected content routes (guarded by `protect` then
`hasContentAccess`) the handler is reached iff the Authorization header
yields a non-empty bearer token that verifies, whose identity resolves to an
existing user, and that user satisfies `isAdmin` or `roles.accessContent`;
a missing/empty token, failed verification, or no-longer-existing user
yields 401, and a failed capability check yields 403. -/
theorem protected_content_route_access (verify : String → Option Claims)
    (db : List User) (authorization : Option String) :
    (∀ u, protectedContentRoute verify db authorization = .handler u ↔
      ∃ t c, extractToken authorization = some t ∧ t ≠ "" ∧ verify t = some c ∧
        findUserById db c.id = some u ∧
        (u.isAdmin || u.roles.accessContent) = true) ∧
    ((∀ t, extractToken authorization = some t → t = "") →
      protectedContentRoute verify db authorization =
        .unauthorized "Not authorized to access this route. Please login.") ∧
    (∀ t, extractToken authorization = some t → t ≠ "" → verify t = none →
      protectedContentRoute verify db authorization =
        .unauthorized "Not authorized, token failed or expired") ∧
    (∀ t c, extractToken authorization = some t → t ≠ "" → verify t = some c →
      findUserById db c.id = none →
      protectedContentRoute verify db authorization =
        .unauthorized "User not found") ∧
    (∀ t c u, extractToken authorization = some t → t ≠ "" → verify t = some c →
      findUserById db c.id = some u →
      (u.isAdmin || u.roles.accessContent) = false →
      protectedContentRoute verify db authorization =
        .forbidden "Access denied. Content access permission required.") := by
  rcases hA : extractToken authorization with _ | t
  · have hroute : protectedContentRoute verify db authorization =
        .unauthorized "Not authorized to access this route. Please login." := by
      simp [protectedContentRoute, protect, hA]
    refine ⟨fun u => ⟨fun h => ?_, fun h => ?_⟩, fun _ => hroute, ?_, ?_, ?_⟩
    · rw [hroute] at h; exact RouteOutcome.noConfusion h
    · rcases h with ⟨t, _, ht, _⟩
      exact Option.noConfusion ht
    · intro t ht; exact absurd ht (by simp)
    · intro t c ht; exact absurd ht (by simp)
    · intro t c u ht; exact absurd ht (by simp)
  · by_cases ht0 : t = ""
    · subst ht0
      have hroute : protectedContentRoute verify db authorization =
          .unauthorized "Not authorized to access this route. Please login." := by
        simp [protectedContentRoute, protect, hA]
      refine ⟨fun u => ⟨fun h => ?_, fun h => ?_⟩, fun _ => hroute, ?_, ?_, ?_⟩
      · rw [hroute] at h; exact RouteOutcome.noConfusion h
      · rcases h with ⟨t', _, ht', hne, _⟩
        exact absurd (Option.some.inj ht').symm hne
      · intro t' ht' hne _
        exact absurd (Option.some.inj ht').symm hne
      · intro t' c ht' hne _ _
        exact absurd (Option.some.inj ht').symm hne
      · intro t' c u ht' hne _ _ _
        exact absurd (Option.some.inj ht').symm hne
    · rcases hv : verify t with _ | c
      · have hroute : protectedContentRoute verify db authorization =
            .unauthorized "Not authorized, token failed or expired" := by
          simp [protectedContentRoute, protect, hA, ht0, hv]
        refine ⟨fun u => ⟨fun h => ?_, fun h => ?_⟩, fun hAll => ?_,
          fun _ _ _ _ => hroute, ?_, ?_⟩
        · rw [hroute] at h; exact RouteOutcome.noConfusion h
        · rcases h with ⟨t', c', ht', _, hv', _⟩
          obtain rfl := Option.some.inj ht'
          rw [hv] at hv'; exact Option.noConfusion hv'
        · exact absurd (hAll t rfl) ht0
        · intro t' c' ht' _ hv' _
          obtain rfl := Option.some.inj ht'
          rw [hv] at hv'; exact Option.noConfusion hv'
        · intro t' c' u ht' _ hv' _ _
          obtain rfl := Option.some.inj ht'
          rw [hv] at hv'; exact Option.noConfusion hv'
      · rcases hf : findUserById db c.id with _ | u'
        · have hroute : protectedContentRoute verify db authorization =
              .unauthorized "User not found" := by
            simp [protectedContentRoute, protect, hA, ht0, hv, hf]
          refine ⟨fun u => ⟨fun h => ?_, fun h => ?_⟩, fun hAll => ?_, ?_,
            fun _ _ _ _ _ _ => hroute, ?_⟩
          · rw [hroute] at h; exact RouteOutcome.noConfusion h
          · rcases h with ⟨t', c', ht', _, hv', hf', _⟩
            obtain rfl := Option.some.inj ht'
            rw [hv] at hv'
            obtain rfl := Option.some.inj hv'
            rw [hf] at hf'; exact Option.noConfusion hf'
          · exact absurd (hAll t rfl) ht0
          · intro t' ht' _ hv'
            obtain rfl := Option.some.inj ht'
            rw [hv] at hv'; exact Option.noConfusion hv'
          · intro t' c' u ht' _ hv' hf' _
            obtain rfl := Option.some.inj ht'
            rw [hv] at hv'
            obtain rfl := Option.some.inj hv'
            rw [hf] at hf'; exact Option.noConfusion hf'
        · cases hcap : (u'.isAdmin || u'.roles.accessContent)
          · have hroute : protectedContentRoute verify db authorization =
                .forbidden "Access denied. Content access permission required." := by
              simp [protectedContentRoute, protect, hasContentAccess, hA, ht0, hv, hf, hcap]
            refine ⟨fun u => ⟨fun h => ?_, fun h => ?_⟩, fun hAll => ?_, ?_, ?_,
              fun _ _ _ _ _ _ _ _ => hroute⟩
            · rw [hroute] at h; exact RouteOutcome.noConfusion h
            · rcases h with ⟨t', c', ht', _, hv', hf', hcap'⟩
              obtain rfl := Option.some.inj ht'
              rw [hv] at hv'
              obtain rfl := Option.some.inj hv'
              rw [hf] at hf'
              obtain rfl := Option.some.inj hf'
              rw [hcap] at hcap'; exact Bool.noConfusion hcap'
            · exact absurd (hAll t rfl) ht0
            · intro t' ht' _ hv'
              obtain rfl := Option.some.inj ht'
              rw [hv] at hv'; exact Option.noConfusion hv'
            · intro t' c' ht' _ hv' hf'
              obtain rfl := Option.some.inj ht'
              rw [hv] at hv'
              obtain rfl := Option.some.inj hv'
              rw [hf] at hf'; exact Option.noConfusion hf'
          · have hroute : protectedContentRoute verify db authorization = .handler u' := by
              simp [protectedContentRoute, protect, hasContentAccess, hA, ht0, hv, hf, hcap]
            refine ⟨fun u => ⟨fun h => ?_, fun h => ?_⟩, fun hAll => ?_, ?_, ?_, ?_⟩
            · rw [hroute] at h
              obtain rfl := RouteOutcome.handler.inj h
              exact ⟨t, c, rfl, ht0, hv, hf, hcap⟩
            · rcases h with ⟨t', c', ht', _, hv', hf', _⟩
              obtain rfl := Option.some.inj ht'
              rw [hv] at hv'
              obtain rfl := Option.some.inj hv'
              rw [hf] at hf'
              obtain rfl := Option.some.inj hf'
              exact hroute
            · exact absurd (hAll t rfl) ht0
            · intro t' ht' _ hv'
              obtain rfl := Option.some.inj ht'
              rw [hv] at hv'; exact Option.noConfusion hv'
            · intro t' c' ht' _ hv' hf'
              obtain rfl := Option.some.inj ht'
              rw [hv] at hv'
              obtain rfl := Option.some.inj hv'
              rw [hf] at hf'; exact Option.noConfusion hf'
            · intro t' c' u ht' _ hv' hf' hcap'
              obtain rfl := Option.some.inj ht'
              rw [hv] at hv'
              obtain rfl := Option.some.inj hv'
              rw [hf] at hf'
              obtain rfl := Option.some.inj hf'
              rw [hcap] at hcap'; exact Bool.noConfusion hcap'

/-- C2: For content update (variant B) and delete (variant A) by an
authenticated actor: a missing id gives 404 with the collection unchanged;
an actor who is neither the record's author (by the controller's own author
reference) nor an admin gets 403 with the collection unchanged; and a
successful update or delete implies the actor was the author or an admin. -/
theorem update_delete_requires_author_or_admin (db : List Content)
    (actor : User) (cid : Nat) (b : ContentBody) :
    (findContentById db cid = none →
      ControllerB.updateContent db actor cid b =
        (.notFound "Content not found", db) ∧
      ControllerA.deleteContent db actor cid =
        (.notFound "Content not found", db)) ∧
    (∀ c, findContentById db cid = some c →
      ¬(c.author_id = actor.userId ∨ actor.isAdmin = true) →
      ControllerB.updateContent db actor cid b =
        (.forbidden "Not authorized to update this content", db)) ∧
    (∀ c, findContentById db cid = some c →
      ¬(c.author_id = actor._id ∨ actor.isAdmin = true) →
      ControllerA.deleteContent db actor cid =
        (.forbidden "Not authorized to delete this content", db)) ∧
    (∀ c' db', ControllerB.updateContent db actor cid b = (.updated c', db') →
      ∃ c, findContentById db cid = some c ∧
        (c.author_id = actor.userId ∨ actor.isAdmin = true)) ∧
    (∀ db', ControllerA.deleteContent db actor cid = (.deleted, db') →
      ∃ c, findContentById db cid = some c ∧
        (c.author_id = actor._id ∨ actor.isAdmin = true)) := by
  refine ⟨fun h => ⟨?_, ?_⟩, ?_, ?_, ?_, ?_⟩
  · simp [ControllerB.updateContent, h]
  · simp [ControllerA.deleteContent, h]
  · intro c hc hno
    have h1 : c.author_id ≠ actor.userId := fun he => hno (Or.inl he)
    have h2 : actor.isAdmin = false := by
      rcases Bool.eq_false_or_eq_true actor.isAdmin with h | h
      · exact absurd (Or.inr h) hno
      · exact h
    simp [ControllerB.updateContent, hc, h1, h2]
  · intro c hc hno
    have h1 : c.author_id ≠ actor._id := fun he => hno (Or.inl he)
    have h2 : actor.isAdmin = false := by
      rcases Bool.eq_false_or_eq_true actor.isAdmin with h | h
      · exact absurd (Or.inr h) hno
      · exact h
    simp [ControllerA.deleteContent, hc, h1, h2]
  · intro c' db' h
    rcases hc : findContentById db cid with _ | c
    · simp [ControllerB.updateContent, hc] at h
    · refine ⟨c, rfl, ?_⟩
      by_contra hno
      have h1 : c.author_id ≠ actor.userId := fun he => hno (Or.inl he)
      have h2 : actor.isAdmin = false := by
        rcases Bool.eq_false_or_eq_true actor.isAdmin with h' | h'
        · exact absurd (Or.inr h') hno
        · exact h'
      simp [ControllerB.updateContent, hc, h1, h2] at h
  · intro db' h
    rcases hc : findContentById db cid with _ | c
    · simp [ControllerA.deleteContent, hc] at h
    · refine ⟨c, rfl, ?_⟩
      by_contra hno
      have h1 : c.author_id ≠ actor._id := fun he => hno (Or.inl he)
      have h2 : actor.isAdmin = false := by
        rcases Bool.eq_false_or_eq_true actor.isAdmin with h' | h'
        · exact absurd (Or.inr h') hno
        · exact h'
      simp [ControllerA.deleteContent, hc, h1, h2] at h

/-- C9: Content update has partial-update semantics: a successful update
writes back `applyUpdates` of the fetched record, and every request field
that is absent leaves the corresponding stored field unchanged. -/
theorem update_partial_semantics (db : List Content) (actor : User) (cid : Nat)
    (b : ContentBody) (c' : Content) (db' : List Content)
    (h : ControllerB.updateContent db actor cid b = (.updated c', db')) :
    ∃ old, findContentById db cid = some old ∧
      db' = replaceById db cid c' ∧
      (b.title = none → c'.title = old.title) ∧
      (b.slug = none → c'.slug = old.slug) ∧
      (b.body = none → c'.body = old.body) ∧
      (b.category = none → c'.category = old.category) ∧
      (b.tags = none → c'.tags = old.tags) ∧
      (b.status = none → c'.status = old.status) := by
  rcases hc : findContentById db cid with _ | old
  · simp [ControllerB.updateContent, hc] at h
  · refine ⟨old, rfl, ?_⟩
    simp only [ControllerB.updateContent, hc] at h
    split at h
    · exact absurd h (by simp)
    · split at h
      · exact absurd h (by simp)
      · rw [Prod.mk.injEq] at h
        obtain ⟨h1, h2⟩ := h
        obtain rfl := UpdateResult.updated.inj h1
        refine ⟨h2.symm, ?_, ?_, ?_, ?_, ?_, ?_⟩ <;> intro hb <;>
          simp [applyUpdates, truthy, hb]

/-- Witness for C9: updating `contentFixtureB` with only
`{status: "published"}` leaves title, slug, body, category and tags
unchanged. -/
theorem update_partial_semantics_witness :
    ∃ old, findContentById [contentFixtureB] 1 = some old ∧
      [publishedContentFixture] = replaceById [contentFixtureB] 1 publishedContentFixture ∧
      (statusOnlyBody.title = none → publishedContentFixture.title = old.title) ∧
      (statusOnlyBody.slug = none → publishedContentFixture.slug = old.slug) ∧
      (statusOnlyBody.body = none → publishedContentFixture.body = old.body) ∧
      (statusOnlyBody.category = none → publishedContentFixture.category = old.category) ∧
      (statusOnlyBody.tags = none → publishedContentFixture.tags = old.tags) ∧
      (statusOnlyBody.status = none → publishedContentFixture.status = old.status) :=
  update_partial_semantics [contentFixtureB] authorFixture 1 statusOnlyBody
    publishedContentFixture [publishedContentFixture] (by decide)

/-- From a failed slug lookup, no stored record has that slug. -/
theorem findOneBySlug_eq_none {db : List Content} {s : String}
    (h : findOneBySlug db s = none) : ∀ c ∈ db, c.slug ≠ s := by
  intro c hc
  have := List.find?_eq_none.1 h c hc
  simpa using this

/-- `createContent` (variant B) preserves global slug distinctness. -/
theorem createContent_preserves_slugsNodup (db : List Content) (actor : User)
    (newId : Nat) (b : ContentBody) (h : slugsNodup db) :
    slugsNodup (ControllerB.createContent db actor newId b).2 := by
  rcases hval : (truthy b.title && truthy b.body && truthy b.category) with _ | _
  · simpa [ControllerB.createContent, hval] using h
  · rcases hsl : findOneBySlug db (finalSlug b) with _ | c0
    · have hres : (ControllerB.createContent db actor newId b).2 =
          db ++ [{ _id := newId, title := b.title.getD "", slug := finalSlug b,
                   body := b.body.getD "", category := b.category.getD "",
                   tags := b.tags.getD [], author_id := actor.userId,
                   status := if truthy b.status then b.status.getD "" else "draft" }] := by
        simp [ControllerB.createContent, hval, hsl]
      rw [hres]
      unfold slugsNodup at h ⊢
      rw [List.map_append]
      refine List.Nodup.append h (by simp) ?_
      intro s hs hs'
      simp only [List.map_cons, List.map_nil, List.mem_singleton] at hs'
      subst hs'
      rcases List.mem_map.1 hs with ⟨x, hx, hxs⟩
      exact findOneBySlug_eq_none hsl x hx hxs
    · simpa [ControllerB.createContent, hval, hsl] using h

/-- If `findById` succeeds, the collection splits around the found document,
and `save` rewrites exactly that position. -/
theorem replaceById_split {db : List Content} {cid : Nat} {c : Content}
    (h : findContentById db cid = some c) :
    ∃ l₁ l₂, db = l₁ ++ c :: l₂ ∧
      ∀ c', replaceById db cid c' = l₁ ++ c' :: l₂ := by
  induction db with
  | nil => simp [findContentById] at h
  | cons x xs ih =>
    by_cases hx : (x._id == cid) = true
    · have hxc : x = c := by
        simpa [findContentById, List.find?, hx] using h
      subst hxc
      exact ⟨[], xs, rfl, fun c' => by simp [replaceById, hx]⟩
    · have h' : findContentById xs cid = some c := by
        simpa [findContentById, List.find?, hx] using h
      rcases ih h' with ⟨l₁, l₂, hdb, hrep⟩
      refine ⟨x :: l₁, l₂, by rw [hdb]; rfl, fun c' => ?_⟩
      simp [replaceById, hx, hrep c']

/-- Replacing the middle document preserves slug distinctness when the new
slug is the old one or is fresh for the whole collection. -/
theorem slugsNodup_replace_middle {l₁ l₂ : List Content} {old nc : Content}
    (h : slugsNodup (l₁ ++ old :: l₂))
    (hcase : nc.slug = old.slug ∨ ∀ c ∈ l₁ ++ old :: l₂, c.slug ≠ nc.slug) :
    slugsNodup (l₁ ++ nc :: l₂) := by
  unfold slugsNodup at h ⊢
  rw [List.map_append, List.map_cons] at h ⊢
  rcases hcase with heq | hnot
  · rw [heq]; exact h
  · rw [List.nodup_middle, List.nodup_cons] at h ⊢
    refine ⟨?_, h.2⟩
    intro hm
    rcases List.mem_append.1 hm with hm' | hm'
    · rcases List.mem_map.1 hm' with ⟨x, hx, hxs⟩
      exact hnot x (List.mem_append.2 (Or.inl hx)) hxs
    · rcases List.mem_map.1 hm' with ⟨x, hx, hxs⟩
      exact hnot x (List.mem_append.2 (Or.inr (List.mem_cons_of_mem _ hx))) hxs

/-- `updateContent` (variant B) preserves global slug distinctness. -/
theorem updateContent_preserves_slugsNodup (db : List Content) (actor : User)
    (cid : Nat) (b : ContentBody) (h : slugsNodup db) :
    slugsNodup (ControllerB.updateContent db actor cid b).2 := by
  rcases hc : findContentById db cid with _ | old
  · simpa [ControllerB.updateContent, hc] using h
  · rcases hown : (old.author_id != actor.userId && !actor.isAdmin) with _ | _
    · rcases hdup : (truthy b.slug && (b.slug.getD "" != old.slug)
          && (findOneBySlug db (b.slug.getD "")).isSome) with _ | _
      · have hres : (ControllerB.updateContent db actor cid b).2 =
            replaceById db cid (applyUpdates old b) := by
          simp [ControllerB.updateContent, hc, hown, hdup]
        rcases replaceById_split hc with ⟨l₁, l₂, hdb, hrep⟩
        rw [hres, hrep]
        rw [hdb] at h
        refine slugsNodup_replace_middle h ?_
        by_cases hts : truthy b.slug = true
        · by_cases heq : b.slug.getD "" = old.slug
          · exact Or.inl (by simp [applyUpdates, hts, heq])
          · have hnone : (findOneBySlug db (b.slug.getD "")).isSome = false := by
              by_contra hcontra
              rw [Bool.not_eq_false] at hcontra
              rw [hts, hcontra] at hdup
              simp at hdup
              exact heq (by simpa using hdup)
            rcases hfind : findOneBySlug db (b.slug.getD "") with _ | c0
            · refine Or.inr ?_
              intro c hcm
              have hslug : (applyUpdates old b).slug = b.slug.getD "" := by
                simp [applyUpdates, hts]
              rw [hslug]
              exact findOneBySlug_eq_none hfind c (hdb ▸ hcm)
            · rw [hfind] at hnone
              simp at hnone
        · refine Or.inl ?_
          simp [applyUpdates, hts]
      · simpa [ControllerB.updateContent, hc, hown, hdup] using h
    · simpa [ControllerB.updateContent, hc, hown] using h

/-- C3: Global slug uniqueness is preserved: create fails 400 when the
final slug already belongs to an existing record; update fails 400 on a
collision whenever the requested slug differs from the record's current
slug; and after any sequence of creates and updates over a collection with
distinct slugs, no two content records share a slug. -/
theorem slug_uniqueness_invariant :
    (∀ db actor newId (b : ContentBody),
      (truthy b.title && truthy b.body && truthy b.category) = true →
      (∃ c ∈ db, c.slug = finalSlug b) →
      ControllerB.createContent db actor newId b =
        (.badRequest "A post with this slug already exists", db)) ∧
    (∀ db actor cid (b : ContentBody) old, findContentById db cid = some old →
      (old.author_id = actor.userId ∨ actor.isAdmin = true) →
      truthy b.slug = true → b.slug.getD "" ≠ old.slug →
      (∃ c ∈ db, c.slug = b.slug.getD "") →
      ControllerB.updateContent db actor cid b =
        (.badRequest "A post with this slug already exists", db)) ∧
    (∀ (ops : List ContentOp) (db : List Content), slugsNodup db →
      slugsNodup (ops.foldl applyOp db)) := by
  refine ⟨?_, ?_, ?_⟩
  · intro db actor newId b hval hex
    rcases hsl : findOneBySlug db (finalSlug b) with _ | c0
    · rcases hex with ⟨c, hc, hcs⟩
      exact absurd hcs (findOneBySlug_eq_none hsl c hc)
    · simp [ControllerB.createContent, hval, hsl]
  · intro db actor cid b old hc hown hts hne hex
    have hownb : (old.author_id != actor.userId && !actor.isAdmin) = false := by
      rcases hown with hown | hown
      · simp [hown]
      · simp [hown]
    have hsome : (findOneBySlug db (b.slug.getD "")).isSome = true := by
      rcases hex with ⟨c, hcm, hcs⟩
      rcases hfind : findOneBySlug db (b.slug.getD "") with _ | c0
      · exact absurd hcs (findOneBySlug_eq_none hfind c hcm)
      · rfl
    simp [ControllerB.updateContent, hc, hownb, hts, hne, hsome]
  · intro ops
    induction ops with
    | nil => intro db h; exact h
    | cons op ops ih =>
      intro db h
      rw [List.foldl_cons]
      refine ih _ ?_
      cases op with
      | create newId b actor => exact createContent_preserves_slugsNodup db actor newId b h
      | update cid b actor => exact updateContent_preserves_slugsNodup db actor cid b h

/-- C4: The two content-controller variants store incompatible author
references (`req.user._id` vs `req.user.userId`), and mixing them breaks
ownership: a record created by the `_id` variant fails the `userId`
variant's author-or-admin check with 403 even for its own non-admin
author. -/
theorem author_reference_variants_incompatible :
    ∃ (u : User) (b ub : ContentBody) (cA cB : Content),
      u.isAdmin = false ∧
      u._id ≠ u.userId ∧
      ControllerA.createContent [] u 1 b = (.created cA, [cA]) ∧
      cA.author_id = u._id ∧
      ControllerB.createContent [] u 1 b = (.created cB, [cB]) ∧
      cB.author_id = u.userId ∧
      ControllerB.updateContent [cA] u 1 ub =
        (.forbidden "Not authorized to update this content", [cA]) :=
  ⟨authorFixture, createBodyFixture, statusOnlyBody, contentFixtureA,
    contentFixtureB, by decide⟩

/-- C5: Every successful registration and every successful password update
stores `bcrypt.hash` of the submitted secret, which (by the hash contract)
never equals the submitted plaintext. -/
theorem stored_password_is_hash (bhash : String → String)
    (hb : ∀ p, bhash p ≠ p) :
    (∀ db mongoId freshId (b : RegisterBody) u tok db',
      registerUser bhash db mongoId freshId b = (.registered u tok, db') →
      u.password = bhash (b.password.getD "") ∧
      u.password ≠ b.password.getD "") ∧
    (∀ db uid (b : UserUpdateBody) u' db', truthy b.password = true →
      updateUser bhash db uid b = (.updated u', db') →
      u'.password = bhash (b.password.getD "") ∧
      u'.password ≠ b.password.getD "") := by
  constructor
  · intro db mongoId freshId b u tok db' h
    unfold registerUser at h
    split at h
    · exact absurd h (by simp)
    · split at h
      · exact absurd h (by simp)
      · rw [Prod.mk.injEq] at h
        obtain ⟨h1, _⟩ := h
        obtain ⟨rfl, _⟩ := RegisterResult.registered.inj h1
        exact ⟨rfl, hb _⟩
  · intro db uid b u' db' htp h
    unfold updateUser at h
    split at h
    · exact absurd h (by simp)
    · split at h
      · exact absurd h (by simp)
      · rw [Prod.mk.injEq] at h
        obtain ⟨h1, _⟩ := h
        have hpw : u'.password = bhash (b.password.getD "") := by
          rw [← UserUpdateResult.updated.inj h1]
        refine ⟨hpw, ?_⟩
        rw [hpw]
        exact hb _

/-- Witness for C5: the concrete registration stores the hash of
`"secret123"`, not the plaintext. -/
theorem stored_password_is_hash_witness :
    ∃ u tok, registerUser hashFixture [] "64b0" "USER-2" registerBodyFixture =
        (.registered u tok, [u]) ∧
      u.password = hashFixture "secret123" ∧ u.password ≠ "secret123" := by
  have hb : ∀ p, hashFixture p ≠ p := by
    intro p h
    have h2 := congrArg String.length h
    simp only [hashFixture] at h2
    rw [String.length_append] at h2
    have h3 : ("$2b$10$" : String).length = 7 := rfl
    omega
  have h := (stored_password_is_hash hashFixture hb).1 [] "64b0" "USER-2"
    registerBodyFixture registeredUserFixture
    (generateAuthToken registeredUserFixture) [registeredUserFixture]
    (by decide)
  exact ⟨registeredUserFixture, generateAuthToken registeredUserFixture,
    by decide, h.1, h.2⟩

/-- C6: Login failure is indistinguishable between unknown email and wrong
password: both return 401 with the identical message
`"Invalid credentials"`. -/
theorem login_generic_invalid_credentials (bcompare : String → String → Bool)
    (db : List User) (email password : Option String)
    (he : truthy email = true) (hp : truthy password = true) :
    (findUserByEmail db (email.getD "") = none →
      loginUser bcompare db email password = .authError "Invalid credentials") ∧
    (∀ u, findUserByEmail db (email.getD "") = some u →
      bcompare (password.getD "") u.password = false →
      loginUser bcompare db email password = .authError "Invalid credentials") := by
  constructor
  · intro h
    simp [loginUser, he, hp, h]
  · intro u h hcmp
    simp [loginUser, he, hp, h, hcmp]

/-- Witness for C6: both an unknown email and a failed comparison yield the
same generic 401 message on concrete inputs. -/
theorem login_generic_invalid_credentials_witness :
    loginUser (fun _ _ => false) [authorFixture] (some "ann@example.com")
        (some "guess") = .authError "Invalid credentials" ∧
    loginUser (fun _ _ => false) [] (some "ghost@example.com")
        (some "guess") = .authError "Invalid credentials" :=
  ⟨(login_generic_invalid_credentials (fun _ _ => false) [authorFixture]
      (some "ann@example.com") (some "guess") (by decide) (by decide)).2
      authorFixture (by decide) rfl,
    (login_generic_invalid_credentials (fun _ _ => false) []
      (some "ghost@example.com") (some "guess") (by decide) (by decide)).1
      (by decide)⟩

/-- C10: The public registration endpoint honors client-supplied privilege
fields: the created user's `isAdmin` and role capabilities equal the request
values (defaulting to false when absent) and the issued token embeds the
same claims, so any caller can mint an admin account. -/
theorem register_honors_privilege_fields (bhash : String → String)
    (db : List User) (mongoId freshId : String) (b : RegisterBody)
    (hn : truthy b.name = true) (he : truthy b.email = true)
    (hp : truthy b.password = true)
    (hu : findUserByEmail db (b.email.getD "") = none) :
    ∃ u tok, registerUser bhash db mongoId freshId b =
        (.registered u tok, db ++ [u]) ∧
      u.isAdmin = b.isAdmin.getD false ∧
      u.roles.accessContent =
        (match b.roles with | some r => r.accessContent.getD false | none => false) ∧
      u.roles.accessProduct =
        (match b.roles with | some r => r.accessProduct.getD false | none => false) ∧
      tok.isAdmin = u.isAdmin ∧ tok.roles = u.roles := by
  refine ⟨registeredUser bhash mongoId freshId b,
    generateAuthToken (registeredUser bhash mongoId freshId b),
    ?_, rfl, rfl, rfl, rfl, rfl⟩
  simp [registerUser, hn, he, hp, hu]

/-- Witness for C10: registering with `isAdmin: true` and
`roles.accessContent: true` on an empty store succeeds and grants those
privileges. -/
theorem register_honors_privilege_fields_witness :
    ∃ u tok, registerUser hashFixture [] "64c0" "USER-3" registerBodyFixture =
        (.registered u tok, [] ++ [u]) ∧
      u.isAdmin = registerBodyFixture.isAdmin.getD false ∧
      u.roles.accessContent =
        (match registerBodyFixture.roles with
         | some r => r.accessContent.getD false
         | none => false) ∧
      u.roles.accessProduct =
        (match registerBodyFixture.roles with
         | some r => r.accessProduct.getD false
         | none => false) ∧
      tok.isAdmin = u.isAdmin ∧ tok.roles = u.roles :=
  register_honors_privilege_fields hashFixture [] "64c0" "USER-3"
    registerBodyFixture (by decide) (by decide) (by decide) (by decide)

end Backend
